import Mathlib

/-!
Verification development for the TenderFlow resilient delivery pipeline
(`scraper/cloud_uploader.py`): persistent upload-job queue, circuit breaker,
exponential backoff with jitter, and the orchestrator that composes them.

Shallow embedding conventions:
* Python `float` arithmetic is modelled exactly over `ℚ` (the quantities
  involved - powers of two, tenths, wall-clock seconds - are exact).
* Every `datetime.now()` read in the source is modelled as one lookup
  `env.clock i` at the next read index `i`; the state carries the count of
  reads performed so far.  Likewise `os.urandom(1)[0]` reads are modelled by
  `env.rand i` (a byte), and the i-th HTTP request actually sent receives the
  response `env.resp i`.
* Exceptions are modelled with `Except String`; the raised message strings
  follow the source.
* SQLite rows are modelled as a list of `UploadJob` records; `ORDER BY
  created_at ASC` is modelled by a stable insertion sort on `created_at`.
-/

/-- Upload job status (`UploadStatus` enum in the source). -/
inductive UploadStatus where
  | pending
  | processing
  | completed
  | failed
  | retry
deriving DecidableEq, Repr

/-- Circuit breaker states (`CircuitState` enum).  The Lean keyword `open`
forces the name `opened` for the `OPEN` state. -/
inductive CircuitState where
  | closed
  | opened
  | half_open
deriving DecidableEq, Repr

/-- One row of the `upload_jobs` table / the `UploadJob` dataclass.
Job ids (uuid strings in the source) are modelled as `Nat`; `metadata` is an
opaque optional string. -/
structure UploadJob where
  id : Nat
  file_path : String
  batch_id : String
  status : UploadStatus
  attempts : Nat
  max_attempts : Nat
  created_at : ℚ
  next_retry_at : Option ℚ
  error_message : Option String
  metadata : Option String
deriving DecidableEq, Repr

/-- `CircuitBreaker` state: configuration plus mutable fields. -/
structure CircuitBreaker where
  failure_threshold : Nat
  recovery_timeout : ℚ
  failure_count : Nat
  last_failure_time : Option ℚ
  state : CircuitState
deriving DecidableEq, Repr

/-- `CircuitBreaker.__init__`: `failure_count = 0`, `last_failure_time = None`,
`state = CLOSED`.  `CloudUploader.__init__` constructs it with the defaults
`failure_threshold = 5`, `recovery_timeout = 60`. -/
def initBreaker (th : Nat) (rto : ℚ) : CircuitBreaker :=
  ⟨th, rto, 0, none, .closed⟩

/-- `CircuitBreaker._on_success`: reset `failure_count` to 0 and close. -/
def CircuitBreaker.onSuccess (cb : CircuitBreaker) : CircuitBreaker :=
  { cb with failure_count := 0, state := .closed }

/-- `CircuitBreaker._on_failure` observed at wall-clock time `now`:
increment `failure_count`, record `last_failure_time`, and open the circuit
when the incremented count reaches the threshold (otherwise the state is left
unchanged). -/
def CircuitBreaker.onFailure (cb : CircuitBreaker) (now : ℚ) : CircuitBreaker :=
  let fc := cb.failure_count + 1
  { cb with
    failure_count := fc
    last_failure_time := some now
    state := if cb.failure_threshold ≤ fc then .opened else cb.state }

/-- `CircuitBreaker._should_attempt_reset` evaluated at time `now`:
false when no failure was recorded, otherwise true iff at least
`recovery_timeout` elapsed since `last_failure_time`. -/
def CircuitBreaker.shouldAttemptReset (cb : CircuitBreaker) (now : ℚ) : Bool :=
  match cb.last_failure_time with
  | none => false
  | some t => decide (cb.recovery_timeout ≤ now - t)

/-- Parsed JSON body of a 2xx ingestion response (`response.json()`);
`status`/`error` keys may be absent. -/
structure ApiResp where
  status : Option String
  error : Option String
deriving DecidableEq, Repr

/-- Raw transport result of one `session.post` to the ingestion endpoint. -/
inductive HttpResp where
  | ok (body : ApiResp)
  | rate_limited (retry_after : Nat)
  | server_error (code : Nat)
  | client_error (text : String)
deriving DecidableEq, Repr

/-- `CloudUploader._make_upload_request` response classification:
2xx returns the parsed body; 429 raises an exception whose message embeds the
`Retry-After` header; 5xx raises; any other status returns a
`{'status': 'failed', 'error': ...}` dictionary (it does not raise). -/
def makeUploadRequest : HttpResp → Except String ApiResp
  | .ok body => .ok body
  | .rate_limited ra =>
      .error ("Rate limited. Retry after " ++ toString ra ++ " seconds")
  | .server_error c => .error ("Server error: " ++ toString c)
  | .client_error t => .ok ⟨some "failed", some ("Client error: " ++ t)⟩

/-- Jitter drawn in `_calculate_backoff` from one urandom byte `b ∈ [0, 255]`:
`base_delay * 0.1 * (2*b/255 - 1)`. -/
def urandomJitter (attempt : Nat) (b : Nat) : ℚ :=
  (2 : ℚ) ^ attempt * (1 / 10) * (2 * (b : ℚ) / 255 - 1)

/-- `CloudUploader._calculate_backoff`: `min(2^attempt + jitter, 300)`. -/
def calculateBackoff (attempt : Nat) (b : Nat) : ℚ :=
  min ((2 : ℚ) ^ attempt + urandomJitter attempt b) 300

/-- External environment of one run: the i-th actually-sent HTTP request gets
response `resp i`; the i-th wall-clock read yields `clock i`; `files p`
states whether path `p` exists; `parses p` whether its JSON loads; the i-th
urandom byte is `rand i`. -/
structure Env where
  resp : Nat → HttpResp
  clock : Nat → ℚ
  files : String → Bool
  parses : String → Bool
  rand : Nat → Nat

/-- Whole-system state: breaker singleton, the persistent `upload_jobs` table
(in insertion order), the number of HTTP requests sent, wall-clock reads and
urandom reads performed, and the id generator for `uuid4`. -/
structure SysState where
  cb : CircuitBreaker
  queue : List UploadJob
  sent : Nat
  reads : Nat
  rands : Nat
  nextId : Nat
deriving DecidableEq, Repr

/-- Stable insert for `ORDER BY created_at ASC`. -/
def insertByCreated (j : UploadJob) : List UploadJob → List UploadJob
  | [] => [j]
  | k :: ks =>
      if j.created_at < k.created_at then j :: k :: ks
      else k :: insertByCreated j ks

/-- Stable sort of the table by `created_at` ascending. -/
def sortByCreated : List UploadJob → List UploadJob
  | [] => []
  | j :: js => insertByCreated j (sortByCreated js)

/-- `WHERE status IN ('pending','retry') AND (next_retry_at IS NULL OR
next_retry_at <= now)`. -/
def eligibleJob (now : ℚ) (j : UploadJob) : Bool :=
  (decide (j.status = .pending) || decide (j.status = .retry)) &&
  (match j.next_retry_at with
   | none => true
   | some t => decide (t ≤ now))

/-- `UploadQueue.enqueue`: insert a fresh row in `PENDING` with `attempts = 0`
and the schema default `max_attempts = 5`; `created_at` is the current time
(one clock read). -/
def enqueue (env : Env) (s : SysState) (fp bid : String) (md : Option String) :
    SysState × Nat :=
  let job : UploadJob :=
    ⟨s.nextId, fp, bid, .pending, 0, 5, env.clock s.reads, none, none, md⟩
  ({ s with queue := s.queue ++ [job], reads := s.reads + 1,
            nextId := s.nextId + 1 }, job.id)

/-- `UploadQueue.get_next_jobs`: one clock read, then the eligible rows in
`created_at` order, at most `limit` of them. -/
def getNextJobs (env : Env) (s : SysState) (limit : Nat) :
    SysState × List UploadJob :=
  let now := env.clock s.reads
  ({ s with reads := s.reads + 1 },
   ((sortByCreated s.queue).filter (eligibleJob now)).take limit)

/-- `UploadQueue.update_job_status`: overwrite `status`, `error_message` and
`next_retry_at` of every row whose id matches (the Python `None` defaults of
the omitted optional arguments are the `none` values passed here). -/
def updateJobStatus (s : SysState) (jobId : Nat) (st : UploadStatus)
    (err : Option String) (nra : Option ℚ) : SysState :=
  { s with queue := s.queue.map fun j =>
      if j.id = jobId then
        { j with status := st, error_message := err, next_retry_at := nra }
      else j }

/-- `UploadQueue.increment_attempts`. -/
def incrementAttempts (s : SysState) (jobId : Nat) : SysState :=
  { s with queue := s.queue.map fun j =>
      if j.id = jobId then { j with attempts := j.attempts + 1 } else j }

/-- First row with the given id (ids are unique in every run). -/
def findJob (s : SysState) (jobId : Nat) : Option UploadJob :=
  s.queue.find? fun j => j.id == jobId

def jobStatus (s : SysState) (jobId : Nat) : Option UploadStatus :=
  (findJob s jobId).map (·.status)

def jobAttempts (s : SysState) (jobId : Nat) : Option Nat :=
  (findJob s jobId).map (·.attempts)

def jobMaxAttempts (s : SysState) (jobId : Nat) : Option Nat :=
  (findJob s jobId).map (·.max_attempts)

def jobError (s : SysState) (jobId : Nat) : Option (Option String) :=
  (findJob s jobId).map (·.error_message)

def jobNextRetry (s : SysState) (jobId : Nat) : Option (Option ℚ) :=
  (findJob s jobId).map (·.next_retry_at)

/-- Gate phase of `CircuitBreaker.call`: when the state is `OPEN` and
`_should_attempt_reset` fails, the call raises `"Circuit breaker is OPEN"`
without invoking the operation; when the reset check passes the breaker moves
to `HALF_OPEN` and the operation proceeds.  Returns the updated state and
whether the wrapped operation may run.  The reset check performs one clock
read only when a `last_failure_time` is recorded (the source returns `False`
before reading the clock otherwise). -/
def breakerGate (env : Env) (s : SysState) : SysState × Bool :=
  if s.cb.state = .opened then
    match s.cb.last_failure_time with
    | none => (s, false)
    | some t =>
        let now := env.clock s.reads
        let s1 := { s with reads := s.reads + 1 }
        if s.cb.recovery_timeout ≤ now - t then
          ({ s1 with cb := { s1.cb with state := .half_open } }, true)
        else (s1, false)
  else (s, true)

/-- `CircuitBreaker.call(self._make_upload_request, payload)`: gate, then send
the request (consuming the next response) and record success or failure.  A
failure records `_on_failure` at the current time (one clock read) and the
exception is re-raised to the caller. -/
def breakerCall (env : Env) (s : SysState) : SysState × Except String ApiResp :=
  let g := breakerGate env s
  match g.2 with
  | false => (g.1, .error "Circuit breaker is OPEN")
  | true =>
      let s1 := g.1
      let r := makeUploadRequest (env.resp s1.sent)
      let s2 := { s1 with sent := s1.sent + 1 }
      match r with
      | .ok body => ({ s2 with cb := s2.cb.onSuccess }, .ok body)
      | .error e =>
          let now := env.clock s2.reads
          ({ s2 with reads := s2.reads + 1, cb := s2.cb.onFailure now },
           .error e)

/-- Body of the `for attempt in range(...)` loop of
`CloudUploader._upload_with_retry`, with `n` iterations remaining.  A 2xx-body
answer returns immediately (success iff the body status is `'completed'`);
an exception on a non-final iteration sleeps `backoff(attempt)` (consuming one
urandom byte) and continues; on the final iteration the exception message is
returned; an empty range yields `"Max attempts exceeded"`. -/
def uploadWithRetryAux (env : Env) : Nat → SysState →
    SysState × Bool × Option String
  | 0, s => (s, false, some "Max attempts exceeded")
  | Nat.succ m, s =>
      let c := breakerCall env s
      match c.2 with
      | .ok body =>
          if body.status = some "completed" then (c.1, true, none)
          else (c.1, false, some (body.error.getD "Unknown error"))
      | .error e =>
          if m = 0 then (c.1, false, some e)
          else uploadWithRetryAux env m { c.1 with rands := c.1.rands + 1 }

/-- `CloudUploader._upload_with_retry(payload, job)`: the loop runs
`job.max_attempts - job.attempts` times (0 when attempts already reach the
maximum, by Python `range` on a non-positive bound). -/
def uploadWithRetry (env : Env) (job : UploadJob) (s : SysState) :
    SysState × Bool × Option String :=
  uploadWithRetryAux env (job.max_attempts - job.attempts) s

/-- `CloudUploader._process_upload_job(job_id)`.  Note that the `job_id`
argument is never used: the job processed is the head of
`get_next_jobs(limit=1)`, i.e. the oldest currently eligible job.  Outcomes:
missing source file or unparsable JSON set `FAILED`; a successful upload sets
`COMPLETED` (clearing error and retry fields); otherwise `FAILED` when
`attempts >= max_attempts` and `RETRY` with
`next_retry_at = now + backoff(attempts)` when attempts remain. -/
def processUploadJob (env : Env) (s : SysState) (jobId : Nat) :
    SysState × Bool × Option String :=
  let p := getNextJobs env s 1
  match p.2 with
  | [] => (p.1, false, some "Job not found")
  | job :: _ =>
      if env.files job.file_path = false then
        (updateJobStatus p.1 job.id .failed (some "File not found") none,
         false, some "File not found")
      else if env.parses job.file_path = false then
        (updateJobStatus p.1 job.id .failed (some "Invalid JSON") none,
         false, some "Invalid JSON")
      else
        let u := uploadWithRetry env job p.1
        let s2 := u.1
        match u.2.1, u.2.2 with
        | true, _ => (updateJobStatus s2 job.id .completed none none, true, none)
        | false, err =>
            if job.max_attempts ≤ job.attempts then
              (updateJobStatus s2 job.id .failed err none, false, err)
            else
              let now := env.clock s2.reads
              let b := calculateBackoff job.attempts (env.rand s2.rands)
              let s3 := { s2 with reads := s2.reads + 1, rands := s2.rands + 1 }
              (updateJobStatus s3 job.id .retry err (some (now + b)), false, err)

/-- `CloudUploader.upload_file`: enqueue, then process immediately (the
processed job is whatever `_process_upload_job` claims). -/
def uploadFile (env : Env) (s : SysState) (fp bid : String) :
    SysState × Bool × Option String :=
  let e := enqueue env s fp bid none
  processUploadJob env e.1 e.2

/-- Per-job body of the `process_queue` drain loop: `increment_attempts`
then `_process_upload_job` for each claimed job (the trailing
`time.sleep(1)` reads no state). -/
def drainSlots (env : Env) : List UploadJob → SysState → SysState
  | [], s => s
  | j :: js, s =>
      let s1 := incrementAttempts s j.id
      let s2 := (processUploadJob env s1 j.id).1
      drainSlots env js s2

/-- `CloudUploader.process_queue`: repeatedly claim up to 10 eligible jobs and
drain them; stop when the claim is empty.  `fuel` bounds the number of
`while` iterations (the source loop is unbounded). -/
def processQueue (env : Env) : Nat → SysState → SysState
  | 0, s => s
  | Nat.succ f, s =>
      let p := getNextJobs env s 10
      match p.2 with
      | [] => p.1
      | jobs => processQueue env f (drainSlots env jobs p.1)

/-- Repeated `_on_failure` records at the given times (in order). -/
def applyFailures (cb : CircuitBreaker) (ts : List ℚ) : CircuitBreaker :=
  ts.foldl (fun c t => c.onFailure t) cb

/-- The core part of the spec's FAILED invariant, per job: a `FAILED` job has
`attempts ≤ max_attempts`; an eligible-statused job still has attempts to
spare.  The second conjunct is the strengthening that makes the first
inductive over single-job drains. -/
def JobInv (j : UploadJob) : Prop :=
  (j.status = .failed → j.attempts ≤ j.max_attempts) ∧
  (j.status = .pending ∨ j.status = .retry → j.attempts < j.max_attempts)

instance (j : UploadJob) : Decidable (JobInv j) := by
  unfold JobInv; infer_instance

/- Concrete scenario data used by the claim theorems and witnesses. -/

/-- A freshly enqueued job (id 0, `attempts = 0`, defaults from the schema). -/
def jC1 : UploadJob := ⟨0, "a", "b", .pending, 0, 5, 0, none, none, none⟩

/-- Transport always answers with a non-429 client error (HTTP 400). -/
def envC1 : Env :=
  ⟨fun _ => .client_error "bad request", fun _ => 100,
   fun _ => true, fun _ => true, fun _ => 0⟩

def sC1 : SysState := ⟨initBreaker 5 60, [jC1], 0, 0, 0, 1⟩

/-- Breaker as reached by one failure with `failure_threshold = 1` followed by
the lazy OPEN → HALF_OPEN transition: in `HALF_OPEN` with
`failure_count = 1`. -/
def cbC5 : CircuitBreaker := ⟨1, 60, 1, some 0, .half_open⟩

def envC3 : Env :=
  ⟨fun _ => .server_error 500, fun _ => 0, fun _ => false, fun _ => true,
   fun _ => 0⟩

def jC3 : UploadJob := ⟨0, "gone.json", "b", .pending, 0, 5, 0, none, none, none⟩

def sC3 : SysState := ⟨initBreaker 5 60, [jC3], 0, 0, 0, 1⟩

/-- Transport always answers HTTP 429 with header `Retry-After: 30`; the wall
clock reads 50 throughout; every urandom byte is 0 (so
`backoff(a) = 0.9 * 2^a`). -/
def envC4 : Env :=
  ⟨fun _ => .rate_limited 30, fun _ => 50, fun _ => true, fun _ => true,
   fun _ => 0⟩

def sC4 : SysState :=
  ⟨initBreaker 5 60, [⟨0, "a", "b", .pending, 0, 5, 0, none, none, none⟩],
   0, 0, 0, 1⟩

/-- Job used to instantiate the amended C4 theorem: one attempt remaining. -/
def jW4 : UploadJob := ⟨0, "a", "b", .retry, 4, 5, 0, none, none, none⟩

def sW4 : SysState := ⟨initBreaker 5 60, [jW4], 0, 0, 0, 1⟩

/-- Wall-clock readings of the C7 trace, by read index.  They are
nondecreasing and the gaps are realizable by the source's `time.sleep(1)`
between jobs, the backoff sleeps and transport latencies below the 30 s
timeout. -/
def clkC7 : List ℚ :=
  [100/10, 101/10, 103/10, 114/10, 134/10, 145/10, 147/10, 158/10, 159/10,
   179/10, 190/10, 220/10, 231/10, 232/10, 252/10, 263/10, 323/10, 334/10,
   335/10, 355/10, 366/10, 516/10, 527/10, 528/10, 559/10, 561/10, 572/10,
   573/10]

/-- Transport always answers with a client error: each such call counts as a
breaker success (the classifier returns a dict instead of raising), keeps the
breaker `CLOSED`, and fails the job at hand without in-loop retries. -/
def envC7 : Env :=
  ⟨fun _ => .client_error "boom", fun i => clkC7.getD i 100,
   fun _ => true, fun _ => true, fun _ => 0⟩

/-- Three pending jobs enqueued in age order: 0 is the oldest, 2 the newest. -/
def jsC7 : List UploadJob :=
  [⟨0, "a", "b", .pending, 0, 5, 0, none, none, none⟩,
   ⟨1, "a", "b", .pending, 0, 5, 1, none, none, none⟩,
   ⟨2, "a", "b", .pending, 0, 5, 2, none, none, none⟩]

def sC7 : SysState := ⟨initBreaker 5 60, jsC7, 0, 0, 0, 3⟩

/-- Single-job store used to instantiate the amended C7 theorem. -/
def jW7 : UploadJob := ⟨0, "gone.json", "b", .pending, 0, 5, 0, none, none, none⟩

def sW7 : SysState := ⟨initBreaker 5 60, [jW7], 0, 0, 0, 1⟩

def envW7 : Env :=
  ⟨fun _ => .server_error 500, fun _ => 0, fun _ => false, fun _ => true,
   fun _ => 0⟩

/-- The job of `sW7` after one drain cycle: incremented once, then failed on
the missing source file. -/
def jW7out : UploadJob :=
  ⟨0, "gone.json", "b", .failed, 1, 5, 0, none, some "File not found", none⟩

/-- Scenario B of the spec: HTTP 500 on every call, `max_attempts = 3`.
Clock readings allow re-eligibility after each computed backoff. -/
def clkC8 : List ℚ := [0, 0, 0, 0, 0, 2, 2, 2, 2, 6, 6]

def envC8 : Env :=
  ⟨fun _ => .server_error 500, fun i => clkC8.getD i 100,
   fun _ => true, fun _ => true, fun _ => 0⟩

def sC8 : SysState :=
  ⟨initBreaker 5 60, [⟨0, "a", "b", .pending, 0, 3, 0, none, none, none⟩],
   0, 0, 0, 1⟩

/-- Store holding one old pending job whose source file is gone; the file
about to be uploaded (`new.json`) does exist. -/
def envC9 : Env :=
  ⟨fun _ => .ok ⟨some "completed", none⟩, fun _ => 50,
   fun p => decide (p = "new.json"), fun _ => true, fun _ => 0⟩

def sC9 : SysState :=
  ⟨initBreaker 5 60, [⟨0, "old.json", "b0", .pending, 0, 5, 0, none, none, none⟩],
   0, 0, 0, 1⟩

/-- Two-row store for the C10 frame witness: the first row carries a stale
error message and retry time that a `COMPLETED` update must clear. -/
def jW10a : UploadJob :=
  ⟨7, "a.json", "b1", .retry, 2, 5, 0, some 40, some "old error", some "m"⟩

def jW10b : UploadJob := ⟨8, "b.json", "b1", .pending, 0, 5, 1, none, none, none⟩

def sW10 : SysState := ⟨initBreaker 5 60, [jW10a, jW10b], 0, 0, 0, 9⟩

/-- Breaker and state used to instantiate the C2 theorem: `OPEN` with a recent
failure. -/
def cbW2 : CircuitBreaker := ⟨1, 60, 1, some 0, .opened⟩

def envW2 : Env :=
  ⟨fun _ => .ok ⟨some "completed", none⟩, fun _ => 5, fun _ => true,
   fun _ => true, fun _ => 0⟩

def sW2 : SysState := ⟨cbW2, [], 0, 0, 0, 0⟩

/-! ### Helper lemmas -/

theorem applyFailures_failure_count (ts : List ℚ) :
    ∀ cb : CircuitBreaker,
      (applyFailures cb ts).failure_count = cb.failure_count + ts.length := by
  induction ts with
  | nil => intro cb; simp [applyFailures]
  | cons t ts ih =>
      intro cb
      simp only [applyFailures, List.foldl_cons] at *
      rw [ih]
      simp [CircuitBreaker.onFailure]
      omega

theorem applyFailures_opened (ts : List ℚ) :
    ∀ cb : CircuitBreaker, ts ≠ [] →
      cb.failure_threshold ≤ cb.failure_count + ts.length →
      (applyFailures cb ts).state = .opened := by
  induction ts with
  | nil => intro cb h; exact absurd rfl h
  | cons t ts ih =>
      intro cb _ hth
      simp only [applyFailures, List.foldl_cons] at *
      cases ts with
      | nil =>
          simp only [List.foldl_nil]
          simp only [List.length_cons, List.length_nil] at hth
          simp [CircuitBreaker.onFailure]
          omega
      | cons t2 ts2 =>
          apply ih (cb.onFailure t) (by simp)
          simp [CircuitBreaker.onFailure]
          simp [List.length_cons] at hth ⊢
          omega

theorem applyFailures_closed (ts : List ℚ) :
    ∀ cb : CircuitBreaker, cb.state = .closed →
      cb.failure_count + ts.length < cb.failure_threshold →
      (applyFailures cb ts).state = .closed := by
  induction ts with
  | nil => intro cb hs _; simpa [applyFailures] using hs
  | cons t ts ih =>
      intro cb hs hth
      simp only [applyFailures, List.foldl_cons] at *
      apply ih (cb.onFailure t)
      · simp [CircuitBreaker.onFailure]
        have : ¬ cb.failure_threshold ≤ cb.failure_count + 1 := by
          simp [List.length_cons] at hth; omega
        simp [this, hs]
      · simp [CircuitBreaker.onFailure, List.length_cons] at hth ⊢
        omega

theorem mem_insertByCreated {x j : UploadJob} {l : List UploadJob} :
    x ∈ insertByCreated j l ↔ x = j ∨ x ∈ l := by
  induction l with
  | nil => simp [insertByCreated]
  | cons k ks ih =>
      simp only [insertByCreated]
      split
      · simp [List.mem_cons]
      · simp [List.mem_cons, ih]
        tauto

theorem mem_sortByCreated {x : UploadJob} {l : List UploadJob} :
    x ∈ sortByCreated l ↔ x ∈ l := by
  induction l with
  | nil => simp [sortByCreated]
  | cons j js ih =>
      simp [sortByCreated, mem_insertByCreated, ih, List.mem_cons]

/-- A job returned by `get_next_jobs` is a row of the table. -/
theorem mem_of_getNextJobs {env : Env} {s : SysState} {limit : Nat}
    {j : UploadJob} (h : j ∈ (getNextJobs env s limit).2) : j ∈ s.queue := by
  simp only [getNextJobs] at h
  have h1 := List.mem_of_mem_take h
  have h2 := (List.mem_filter.mp h1).1
  exact mem_sortByCreated.mp h2

theorem find?_id_mem {l : List UploadJob} {j : UploadJob} (hj : j ∈ l) :
    ∃ j0, l.find? (fun x => x.id == j.id) = some j0 := by
  induction l with
  | nil => cases hj
  | cons a l ih =>
      by_cases h : (a.id == j.id) = true
      · exact ⟨a, by simp [List.find?, h]⟩
      · have : j ∈ l := by
          rcases List.mem_cons.mp hj with rfl | hm
          · simp at h
          · exact hm
        obtain ⟨j0, h0⟩ := ih this
        exact ⟨j0, by simp [List.find?, h, h0]⟩

theorem find?_update_list (l : List UploadJob) (i : Nat) (st : UploadStatus)
    (e : Option String) (n : Option ℚ) :
    (l.map fun j =>
        if j.id = i then
          { j with status := st, error_message := e, next_retry_at := n }
        else j).find? (fun x => x.id == i) =
      (l.find? (fun x => x.id == i)).map fun j =>
        { j with status := st, error_message := e, next_retry_at := n } := by
  induction l with
  | nil => simp
  | cons a l ih =>
      by_cases h : a.id = i
      · simp [List.find?, h]
      · have hb : (a.id == i) = false := by simp [h]
        simp only [List.map_cons, List.find?]
        rw [if_neg h]
        simp only [hb]
        exact ih

/-- `update_job_status` seen through the row lookup: the looked-up row gets
exactly the three written fields replaced. -/
theorem findJob_update (s : SysState) (i : Nat) (st : UploadStatus)
    (e : Option String) (n : Option ℚ) :
    findJob (updateJobStatus s i st e n) i =
      (findJob s i).map fun j =>
        { j with status := st, error_message := e, next_retry_at := n } := by
  simpa [findJob, updateJobStatus] using find?_update_list s.queue i st e n

theorem breakerGate_queue (env : Env) (s : SysState) :
    (breakerGate env s).1.queue = s.queue := by
  unfold breakerGate
  dsimp only
  split
  · split
    · rfl
    · split <;> rfl
  · rfl

theorem breakerCall_queue (env : Env) (s : SysState) :
    (breakerCall env s).1.queue = s.queue := by
  unfold breakerCall
  have h := breakerGate_queue env s
  dsimp only
  split
  · exact h
  · split
    · exact h
    · exact h

theorem uploadWithRetryAux_queue (env : Env) :
    ∀ (n : Nat) (s : SysState), (uploadWithRetryAux env n s).1.queue = s.queue := by
  intro n
  induction n with
  | zero => intro s; simp [uploadWithRetryAux]
  | succ m ih =>
      intro s
      rw [uploadWithRetryAux]
      have hq := breakerCall_queue env s
      dsimp only
      split
      · split
        · exact hq
        · exact hq
      · split
        · exact hq
        · rw [ih]; exact hq

/-! ### Claim theorems -/

/-- C2: starting from a fresh breaker, exactly `failure_threshold` consecutive
recorded failures put the state at `OPEN` (and any fewer leave it `CLOSED`);
and while the state is `OPEN` with less than `recovery_timeout` elapsed since
`last_failure_time`, a guarded call fails immediately with the distinguished
`"Circuit breaker is OPEN"` error, sends no HTTP request, and leaves the
breaker and the store untouched. -/
theorem c2_threshold_opens_and_open_fails_fast
    (th : Nat) (hth : 1 ≤ th) (rto : ℚ) (ts : List ℚ) (hlen : ts.length = th)
    (env : Env) (s : SysState) (lt now : ℚ)
    (hst : s.cb.state = .opened) (hlft : s.cb.last_failure_time = some lt)
    (hclk : env.clock s.reads = now)
    (helapsed : now - lt < s.cb.recovery_timeout) :
    (applyFailures (initBreaker th rto) ts).state = .opened ∧
    (∀ ts2 : List ℚ, ts2.length < th →
        (applyFailures (initBreaker th rto) ts2).state = .closed) ∧
    (breakerCall env s).2 = Except.error "Circuit breaker is OPEN" ∧
    (breakerCall env s).1.sent = s.sent ∧
    (breakerCall env s).1.cb = s.cb ∧
    (breakerCall env s).1.queue = s.queue := by
  have hgate : breakerGate env s =
      ({ s with reads := s.reads + 1 }, false) := by
    unfold breakerGate
    rw [hst, if_pos rfl, hlft]
    dsimp only
    rw [hclk, if_neg (not_le.mpr helapsed)]
  have hcall : breakerCall env s =
      ({ s with reads := s.reads + 1 },
       Except.error "Circuit breaker is OPEN") := by
    unfold breakerCall
    rw [hgate]
  refine ⟨?_, ?_, by rw [hcall], by rw [hcall], by rw [hcall], by rw [hcall]⟩
  · apply applyFailures_opened
    · intro hnil; rw [hnil] at hlen; simp at hlen; omega
    · simp [initBreaker, hlen]
  · intro ts2 h2
    apply applyFailures_closed
    · rfl
    · simpa [initBreaker] using h2

/-- C2 witness: breaker `OPEN` after one failure with threshold 1, clock at 5,
last failure at 0, timeout 60. -/
theorem c2_witness :
    (applyFailures (initBreaker 1 60) [3]).state = .opened ∧
    (∀ ts2 : List ℚ, ts2.length < 1 →
        (applyFailures (initBreaker 1 60) ts2).state = .closed) ∧
    (breakerCall envW2 sW2).2 = Except.error "Circuit breaker is OPEN" ∧
    (breakerCall envW2 sW2).1.sent = sW2.sent ∧
    (breakerCall envW2 sW2).1.cb = sW2.cb ∧
    (breakerCall envW2 sW2).1.queue = sW2.queue :=
  c2_threshold_opens_and_open_fails_fast 1 (by decide) 60 [3] rfl envW2 sW2
    0 5 rfl rfl rfl (by show (5 : ℚ) - 0 < 60; norm_num)

/-- C5 counterexample: a failure recorded in `HALF_OPEN` does transition to
`OPEN` and update `last_failure_time`, but it increments `failure_count`
from 1 to 2 instead of keeping it unchanged. -/
theorem c5_counterexample :
    (cbC5.onFailure 7).state = .opened ∧
    (cbC5.onFailure 7).last_failure_time = some 7 ∧
    cbC5.failure_count = 1 ∧
    (cbC5.onFailure 7).failure_count = 2 ∧
    ¬ ((cbC5.onFailure 7).failure_count = cbC5.failure_count) := by
  refine ⟨rfl, rfl, rfl, rfl, by decide⟩

/-- C5 amended: a failure recorded in `HALF_OPEN` transitions to `OPEN`,
records `last_failure_time = now`, and increments `failure_count` by one
(rather than keeping it).  The transition to `OPEN` relies on
`failure_count + 1` reaching the threshold, which holds in every reachable
`HALF_OPEN` state because `HALF_OPEN` is only entered from `OPEN` and the
count is not reset on that transition. -/
theorem c5_amended (cb : CircuitBreaker) (now : ℚ)
    (hs : cb.state = .half_open)
    (hfc : cb.failure_threshold ≤ cb.failure_count + 1) :
    (cb.onFailure now).state = .opened ∧
    (cb.onFailure now).last_failure_time = some now ∧
    (cb.onFailure now).failure_count = cb.failure_count + 1 := by
  clear hs
  unfold CircuitBreaker.onFailure
  refine ⟨?_, rfl, rfl⟩
  dsimp only
  rw [if_pos hfc]

/-- C5 amended witness at the concrete `HALF_OPEN` breaker. -/
theorem c5_amended_witness :
    (cbC5.onFailure 7).state = .opened ∧
    (cbC5.onFailure 7).last_failure_time = some 7 ∧
    (cbC5.onFailure 7).failure_count = cbC5.failure_count + 1 :=
  c5_amended cbC5 7 rfl (by decide)

/-- C6: for every attempt and every admissible urandom byte `b ≤ 255`, the
backoff equals `min(2^attempt + jitter, 300)` with the jitter within ±10% of
`2^attempt`, hence it is nonnegative, at most 300, and lies in
`[0.9·2^attempt, 1.1·2^attempt]` capped at 300. -/
theorem c6_backoff_bounds (a b : Nat) (hb : b ≤ 255) :
    0 ≤ calculateBackoff a b ∧
    calculateBackoff a b ≤ 300 ∧
    calculateBackoff a b = min ((2 : ℚ) ^ a + urandomJitter a b) 300 ∧
    min ((9 / 10) * (2 : ℚ) ^ a) 300 ≤ calculateBackoff a b ∧
    calculateBackoff a b ≤ min ((11 / 10) * (2 : ℚ) ^ a) 300 := by
  have h2 : (0 : ℚ) < 2 ^ a := by positivity
  have hb0 : (0 : ℚ) ≤ (b : ℚ) := Nat.cast_nonneg b
  have hb1 : ((b : ℚ)) ≤ 255 := by exact_mod_cast hb
  have hlo : (9 / 10) * (2 : ℚ) ^ a ≤ (2 : ℚ) ^ a + urandomJitter a b := by
    unfold urandomJitter
    nlinarith [mul_nonneg h2.le hb0]
  have hhi : (2 : ℚ) ^ a + urandomJitter a b ≤ (11 / 10) * (2 : ℚ) ^ a := by
    unfold urandomJitter
    nlinarith [mul_le_mul_of_nonneg_left hb1 h2.le]
  refine ⟨?_, min_le_right _ _, rfl, ?_, ?_⟩
  · have h9 : (0 : ℚ) ≤ (9 / 10) * 2 ^ a := by positivity
    exact le_min (h9.trans hlo) (by norm_num)
  · exact min_le_min hlo le_rfl
  · exact min_le_min hhi le_rfl

/-- C6 witness at attempt 3 and urandom byte 0. -/
theorem c6_witness :
    0 ≤ calculateBackoff 3 0 ∧
    calculateBackoff 3 0 ≤ 300 ∧
    calculateBackoff 3 0 = min ((2 : ℚ) ^ 3 + urandomJitter 3 0) 300 ∧
    min ((9 / 10) * (2 : ℚ) ^ 3) 300 ≤ calculateBackoff 3 0 ∧
    calculateBackoff 3 0 ≤ min ((11 / 10) * (2 : ℚ) ^ 3) 300 :=
  c6_backoff_bounds 3 0 (by decide)

/- Batteries marks the `Rat` arithmetic operations `@[irreducible]`, which
blocks `decide`'s reduction of concrete executions; restore the default
transparency for them within this file. -/
attribute [local semireducible] Rat.add Rat.mul Rat.sub Rat.inv

/-- C1 counterexample: transport answers a non-429 client error (a permanent
classification) for a claimed job with `attempts = 0 < max_attempts = 5`, yet
the orchestrator sets the job to `RETRY`, not `FAILED`: the permanent/
transient distinction is lost because `_make_upload_request` returns a
`failed` dict and `_process_upload_job` treats every unsuccessful outcome
alike. -/
theorem c1_counterexample :
    jobStatus (processUploadJob envC1 sC1 0).1 0 = some .retry ∧
    ¬ (jobStatus (processUploadJob envC1 sC1 0).1 0 = some .failed) := by
  decide

/-- C3 counterexample: a job whose source file does not exist, processed
through the drain loop, ends `FAILED` with `error_message` "File not found"
but with `attempts = 1`, not `0`: `process_queue` calls `increment_attempts`
before `_process_upload_job` runs the source check. -/
theorem c3_counterexample :
    jobStatus (processQueue envC3 1 sC3) 0 = some .failed ∧
    jobError (processQueue envC3 1 sC3) 0 = some (some "File not found") ∧
    jobAttempts (processQueue envC3 1 sC3) 0 = some 1 ∧
    ¬ (jobAttempts (processQueue envC3 1 sC3) 0 = some 0) := by
  decide

/-- C4 counterexample: transport answers 429 with `Retry-After: 30` on every
call and the wall clock reads 50 throughout, yet the deferred job's
`next_retry_at` is `50 + backoff(1) = 51.8` (with zero-byte jitter), more
than 20 s away from `now + 30 = 80`: the Retry-After duration survives only
inside the error message and is never used for scheduling. -/
theorem c4_counterexample :
    jobStatus (processQueue envC4 1 sC4) 0 = some .retry ∧
    jobError (processQueue envC4 1 sC4) 0 =
      some (some "Rate limited. Retry after 30 seconds") ∧
    jobNextRetry (processQueue envC4 1 sC4) 0 = some (some (259/5 : ℚ)) ∧
    (259/5 : ℚ) + 20 < 50 + 30 := by
  decide

/-- C7 counterexample: three pending jobs with default `max_attempts = 5`,
client-error transport (breaker stays `CLOSED`), and wall-clock readings
realizable under the source's sleeps and sub-30 s request latencies.  Because
`_process_upload_job` re-fetches the oldest eligible job instead of the one
just claimed and incremented, the oldest job (re-eligible after its short
backoff) repeatedly steals the newest job's processing slot; after six drain
iterations the newest job is `FAILED` with `attempts = 6 > max_attempts = 5`,
violating the invariant. -/
theorem c7_counterexample :
    jobStatus (processQueue envC7 6 sC7) 2 = some .failed ∧
    jobAttempts (processQueue envC7 6 sC7) 2 = some 6 ∧
    jobMaxAttempts (processQueue envC7 6 sC7) 2 = some 5 ∧
    ¬ (6 ≤ 5) := by
  decide

/-- C8: Scenario B exactly as claimed.  With HTTP 500 on every transport call
and `max_attempts = 3`, successive drain cycles leave the job in `RETRY`
after cycle 1 and cycle 2 and in `FAILED` (with `attempts = 3`) after cycle
3; exactly 3 requests were sent, the breaker's `failure_count` rose from 0 to
3, and with `failure_threshold = 5 ≥ 4` the breaker stays `CLOSED`. -/
theorem c8_server_error_drain :
    jobStatus (processQueue envC8 1 sC8) 0 = some .retry ∧
    jobStatus (processQueue envC8 2 sC8) 0 = some .retry ∧
    jobStatus (processQueue envC8 3 sC8) 0 = some .failed ∧
    jobAttempts (processQueue envC8 3 sC8) 0 = some 3 ∧
    sC8.cb.failure_count = 0 ∧
    (processQueue envC8 3 sC8).cb.failure_count = 3 ∧
    (processQueue envC8 3 sC8).cb.state = .closed ∧
    4 ≤ (processQueue envC8 3 sC8).cb.failure_threshold ∧
    (processQueue envC8 3 sC8).sent = 3 := by
  decide

/-- C9: `_process_upload_job` ignores the job id it is given - its result is
literally independent of that argument - and `upload_file` therefore can
process and report on an older eligible job: here it enqueues job 1 (whose
file exists) but claims, fails and reports "File not found" for the older
job 0, leaving job 1 pending. -/
theorem c9_job_id_ignored :
    (∀ (env : Env) (s : SysState) (i1 i2 : Nat),
        processUploadJob env s i1 = processUploadJob env s i2) ∧
    jobStatus (uploadFile envC9 sC9 "new.json" "b1").1 0 = some .failed ∧
    jobStatus (uploadFile envC9 sC9 "new.json" "b1").1 1 = some .pending ∧
    (uploadFile envC9 sC9 "new.json" "b1").2 = (false, some "File not found") ∧
    envC9.files "new.json" = true := by
  refine ⟨fun env s i1 i2 => rfl, ?_, ?_, ?_, ?_⟩ <;> decide

/-! ### Symbolic one-cycle lemmas and the single-job drain invariant -/

theorem processUploadJob_ok_body
    (env : Env) (s : SysState) (j : UploadJob) (body : ApiResp) (anyId : Nat)
    (hj : (getNextJobs env s 1).2 = [j])
    (hf : env.files j.file_path = true) (hp : env.parses j.file_path = true)
    (hcb : ¬ s.cb.state = .opened)
    (hresp : makeUploadRequest (env.resp s.sent) = .ok body)
    (hbody : ¬ body.status = some "completed")
    (hrem : j.attempts < j.max_attempts) :
    processUploadJob env s anyId =
      (updateJobStatus
        ⟨s.cb.onSuccess, s.queue, s.sent + 1, s.reads + 2, s.rands + 1, s.nextId⟩
        j.id .retry (some (body.error.getD "Unknown error"))
        (some (env.clock (s.reads + 1) +
          calculateBackoff j.attempts (env.rand s.rands))),
       false, some (body.error.getD "Unknown error")) := by
  obtain ⟨m, hm⟩ : ∃ m, j.max_attempts - j.attempts = m + 1 :=
    ⟨j.max_attempts - j.attempts - 1, by omega⟩
  have hbc : breakerCall env ⟨s.cb, s.queue, s.sent, s.reads + 1, s.rands, s.nextId⟩ =
      (⟨s.cb.onSuccess, s.queue, s.sent + 1, s.reads + 1, s.rands, s.nextId⟩,
       .ok body) := by
    unfold breakerCall breakerGate
    dsimp only
    rw [if_neg hcb, hresp]
  unfold processUploadJob
  dsimp only
  rw [hj]
  dsimp only
  rw [hf, if_neg (by decide : ¬ (true = false))]
  rw [hp, if_neg (by decide : ¬ (true = false))]
  unfold uploadWithRetry
  have hp1 : (getNextJobs env s 1).1 =
      ⟨s.cb, s.queue, s.sent, s.reads + 1, s.rands, s.nextId⟩ := rfl
  rw [hp1, hm, uploadWithRetryAux]
  dsimp only
  rw [hbc]
  dsimp only
  rw [if_neg hbody]
  dsimp only
  rw [if_neg (not_le.mpr hrem)]

theorem processUploadJob_error_last
    (env : Env) (s : SysState) (j : UploadJob) (msg : String) (anyId : Nat)
    (hj : (getNextJobs env s 1).2 = [j])
    (hf : env.files j.file_path = true) (hp : env.parses j.file_path = true)
    (hcb : ¬ s.cb.state = .opened)
    (hresp : makeUploadRequest (env.resp s.sent) = .error msg)
    (hone : j.attempts + 1 = j.max_attempts) :
    processUploadJob env s anyId =
      (updateJobStatus
        ⟨s.cb.onFailure (env.clock (s.reads + 1)), s.queue, s.sent + 1,
         s.reads + 3, s.rands + 1, s.nextId⟩
        j.id .retry (some msg)
        (some (env.clock (s.reads + 2) +
          calculateBackoff j.attempts (env.rand s.rands))),
       false, some msg) := by
  have hm : j.max_attempts - j.attempts = 0 + 1 := by omega
  have hbc : breakerCall env ⟨s.cb, s.queue, s.sent, s.reads + 1, s.rands, s.nextId⟩ =
      (⟨s.cb.onFailure (env.clock (s.reads + 1)), s.queue, s.sent + 1,
        s.reads + 2, s.rands, s.nextId⟩, .error msg) := by
    unfold breakerCall breakerGate
    dsimp only
    rw [if_neg hcb, hresp]
  unfold processUploadJob
  dsimp only
  rw [hj]
  dsimp only
  rw [hf, if_neg (by decide : ¬ (true = false))]
  rw [hp, if_neg (by decide : ¬ (true = false))]
  unfold uploadWithRetry
  have hp1 : (getNextJobs env s 1).1 =
      ⟨s.cb, s.queue, s.sent, s.reads + 1, s.rands, s.nextId⟩ := rfl
  rw [hp1, hm, uploadWithRetryAux]
  dsimp only
  rw [hbc]
  dsimp only
  rw [if_pos rfl]
  dsimp only
  rw [if_neg (by omega : ¬ j.max_attempts ≤ j.attempts)]

theorem processUploadJob_file_missing
    (env : Env) (s : SysState) (j : UploadJob) (anyId : Nat)
    (hj : (getNextJobs env s 1).2 = [j])
    (hf : env.files j.file_path = false) :
    processUploadJob env s anyId =
      (updateJobStatus ⟨s.cb, s.queue, s.sent, s.reads + 1, s.rands, s.nextId⟩
        j.id .failed (some "File not found") none,
       false, some "File not found") := by
  unfold processUploadJob
  dsimp only
  rw [hj]
  dsimp only
  rw [hf, if_pos rfl]
  rfl

theorem eligibleJob_of_pending {t : ℚ} {j : UploadJob}
    (hst : j.status = .pending) (hnr : j.next_retry_at = none) :
    eligibleJob t j = true := by
  simp [eligibleJob, hst, hnr]

theorem eligibleJob_mono {t t2 : ℚ} {j : UploadJob}
    (h : eligibleJob t j = true) (hle : t ≤ t2) : eligibleJob t2 j = true := by
  unfold eligibleJob at h ⊢
  cases hnr : j.next_retry_at with
  | none => simpa [hnr] using h
  | some x =>
      rw [hnr] at h
      simp only [Bool.and_eq_true, decide_eq_true_eq] at h ⊢
      exact ⟨h.1, le_trans h.2 hle⟩

theorem eligibleJob_status {t : ℚ} {j : UploadJob}
    (h : eligibleJob t j = true) :
    j.status = .pending ∨ j.status = .retry := by
  unfold eligibleJob at h
  simp only [Bool.and_eq_true, Bool.or_eq_true, decide_eq_true_eq] at h
  exact h.1

theorem eligibleJob_increment {t : ℚ} {j : UploadJob}
    (h : eligibleJob t j = true) :
    eligibleJob t { j with attempts := j.attempts + 1 } = true := by
  unfold eligibleJob at h ⊢
  exact h

/-- Shape of one `_process_upload_job` on a single-row table holding an
eligible job: the row keeps its `attempts` and `max_attempts` and only moves
to `COMPLETED`, `FAILED`, or - only when attempts remain - `RETRY`. -/

theorem getNextJobs_singleton (env : Env) (s : SysState) (j : UploadJob)
    (k : Nat) (hq : s.queue = [j])
    (he : eligibleJob (env.clock s.reads) j = true) :
    (getNextJobs env s (k + 1)).2 = [j] := by
  unfold getNextJobs
  dsimp only
  rw [hq]
  simp [sortByCreated, insertByCreated, he]

theorem jobFields_update_singleton (s' : SysState) (x : UploadJob)
    (hq : s'.queue = [x]) (st : UploadStatus) (e : Option String)
    (n : Option ℚ) :
    jobStatus (updateJobStatus s' x.id st e n) x.id = some st ∧
    jobError (updateJobStatus s' x.id st e n) x.id = some e ∧
    jobAttempts (updateJobStatus s' x.id st e n) x.id = some x.attempts ∧
    jobNextRetry (updateJobStatus s' x.id st e n) x.id = some n := by
  simp [jobStatus, jobError, jobAttempts, jobNextRetry, findJob,
    updateJobStatus, hq]

theorem processUploadJob_single_shape
    (env : Env) (s : SysState) (j : UploadJob) (anyId : Nat)
    (hj : (getNextJobs env s 1).2 = [j]) (hq : s.queue = [j]) :
    ∃ st err nra,
      (processUploadJob env s anyId).1.queue =
        [{ j with status := st, error_message := err, next_retry_at := nra }] ∧
      (st = .completed ∨ st = .failed ∨
        (st = .retry ∧ j.attempts < j.max_attempts)) := by
  have hqp : (getNextJobs env s 1).1.queue = [j] := by
    simp [getNextJobs, hq]
  unfold processUploadJob
  dsimp only
  rw [hj]
  dsimp only
  by_cases hfl : env.files j.file_path = false
  · rw [if_pos hfl]
    exact ⟨.failed, some "File not found", none,
      by simp [updateJobStatus, hqp], Or.inr (Or.inl rfl)⟩
  · rw [if_neg hfl]
    by_cases hpr : env.parses j.file_path = false
    · rw [if_pos hpr]
      exact ⟨.failed, some "Invalid JSON", none,
        by simp [updateJobStatus, hqp], Or.inr (Or.inl rfl)⟩
    · rw [if_neg hpr]
      have hqu : (uploadWithRetry env j (getNextJobs env s 1).1).1.queue
          = [j] := by
        unfold uploadWithRetry
        rw [uploadWithRetryAux_queue]
        exact hqp
      rcases hok : (uploadWithRetry env j (getNextJobs env s 1).1).2.1
        with _ | _
      · -- upload reported failure
        simp only [hok]
        by_cases hmax : j.max_attempts ≤ j.attempts
        · rw [if_pos hmax]
          exact ⟨.failed, (uploadWithRetry env j (getNextJobs env s 1).1).2.2,
            none, by simp [updateJobStatus, hqu], Or.inr (Or.inl rfl)⟩
        · rw [if_neg hmax]
          exact ⟨.retry, (uploadWithRetry env j (getNextJobs env s 1).1).2.2,
            some (env.clock (uploadWithRetry env j
                (getNextJobs env s 1).1).1.reads +
              calculateBackoff j.attempts
                (env.rand (uploadWithRetry env j
                  (getNextJobs env s 1).1).1.rands)),
            by simp [updateJobStatus, hqu],
            Or.inr (Or.inr ⟨rfl, not_le.mp hmax⟩)⟩
      · -- upload succeeded
        simp only [hok]
        exact ⟨.completed, none, none,
          by simp [updateJobStatus, hqu], Or.inl rfl⟩

theorem processQueue_single_inv (env : Env)
    (hmono : ∀ i k : Nat, i ≤ k → env.clock i ≤ env.clock k) :
    ∀ (fuel : Nat) (s : SysState) (j : UploadJob),
      s.queue = [j] → JobInv j →
      ∃ j2, (processQueue env fuel s).queue = [j2] ∧ JobInv j2 := by
  intro fuel
  induction fuel with
  | zero =>
      intro s j hq hinv
      exact ⟨j, by simpa [processQueue] using hq, hinv⟩
  | succ f ih =>
      intro s j hq hinv
      by_cases he : eligibleJob (env.clock s.reads) j = true
      · have hclaim : (getNextJobs env s 10).2 = [j] :=
          getNextJobs_singleton env s j 9 hq he
        have hstep : processQueue env (f + 1) s =
            processQueue env f
              ((processUploadJob env
                (incrementAttempts (getNextJobs env s 10).1 j.id) j.id).1) := by
          rw [processQueue, hclaim]
          rfl
        have hq2 : (incrementAttempts (getNextJobs env s 10).1 j.id).queue =
            [{ j with attempts := j.attempts + 1 }] := by
          simp [incrementAttempts, getNextJobs, hq]
        have he2 : eligibleJob
            (env.clock (incrementAttempts (getNextJobs env s 10).1 j.id).reads)
            { j with attempts := j.attempts + 1 } = true :=
          eligibleJob_increment
            (eligibleJob_mono he (hmono s.reads (s.reads + 1) (by omega)))
        have hj2 : (getNextJobs env
            (incrementAttempts (getNextJobs env s 10).1 j.id) 1).2 =
            [{ j with attempts := j.attempts + 1 }] :=
          getNextJobs_singleton env _ _ 0 hq2 he2
        obtain ⟨st, err, nra, hqout, hcases⟩ :=
          processUploadJob_single_shape env
            (incrementAttempts (getNextJobs env s 10).1 j.id)
            { j with attempts := j.attempts + 1 } j.id hj2 hq2
        have hlt : j.attempts < j.max_attempts := hinv.2 (eligibleJob_status he)
        have hinv2 : JobInv ⟨j.id, j.file_path, j.batch_id, st,
            j.attempts + 1, j.max_attempts, j.created_at, nra, err,
            j.metadata⟩ := by
          unfold JobInv
          rcases hcases with rfl | rfl | ⟨rfl, hlt2⟩
          · exact ⟨(fun hcon => nomatch hcon), (fun hcon => nomatch hcon)⟩
          · refine ⟨fun _ => ?_, (fun hcon => nomatch hcon)⟩
            show j.attempts + 1 ≤ j.max_attempts
            omega
          · exact ⟨(fun hcon => nomatch hcon), fun _ => hlt2⟩
        rw [hstep]
        exact ih _ _ hqout hinv2
      · have he0 : eligibleJob (env.clock s.reads) j = false := by
          simpa using he
        have hclaim0 : (getNextJobs env s 10).2 = [] := by
          unfold getNextJobs
          dsimp only
          rw [hq]
          simp [sortByCreated, insertByCreated, he0]
        refine ⟨j, ?_, hinv⟩
        rw [processQueue, hclaim0]
        exact hq
/-- C1 amended: a permanent classification (non-429/5xx client error) ends
the in-process retry loop after exactly one transport call with the client
error surfaced, but while attempts remain the Orchestrator sets the job to
`RETRY`, not `FAILED`. -/
theorem c1_amended (env : Env) (s : SysState) (j : UploadJob) (txt : String)
    (hj : (getNextJobs env s 1).2 = [j])
    (hf : env.files j.file_path = true) (hp : env.parses j.file_path = true)
    (hcb : ¬ s.cb.state = .opened)
    (hresp : env.resp s.sent = .client_error txt)
    (hrem : j.attempts < j.max_attempts) :
    (processUploadJob env s 0).2.1 = false ∧
    (processUploadJob env s 0).2.2 = some ("Client error: " ++ txt) ∧
    (processUploadJob env s 0).1.sent = s.sent + 1 ∧
    jobStatus (processUploadJob env s 0).1 j.id = some .retry := by
  have hmk : makeUploadRequest (env.resp s.sent) =
      .ok ⟨some "failed", some ("Client error: " ++ txt)⟩ := by
    rw [hresp]; rfl
  have h := processUploadJob_ok_body env s j
    ⟨some "failed", some ("Client error: " ++ txt)⟩ 0 hj hf hp hcb hmk
    (by simp) hrem
  rw [h]
  have hmem : j ∈ s.queue :=
    mem_of_getNextJobs (by rw [hj]; exact List.mem_singleton_self j)
  obtain ⟨j0, h0⟩ := find?_id_mem hmem
  refine ⟨rfl, rfl, rfl, ?_⟩
  unfold jobStatus
  rw [findJob_update]
  have hfj : findJob
      ⟨CircuitBreaker.onSuccess s.cb, s.queue, s.sent + 1, s.reads + 2,
       s.rands + 1, s.nextId⟩ j.id =
      s.queue.find? (fun x => x.id == j.id) := rfl
  rw [hfj, h0]
  rfl

/-- C3 amended: a job whose source does not resolve ends `FAILED` with
`error_message` "File not found" and no attempt increment is performed by
`_process_upload_job` itself; but through the drain loop the counter was
already incremented once before the source check, so the job ends with
`attempts` one above its previous value (1 for a fresh job), while the
direct `upload_file` path (which never increments) leaves `attempts = 0`. -/
theorem c3_amended (env : Env) (s : SysState) (j : UploadJob)
    (hq : s.queue = [j]) (hst : j.status = .pending)
    (hnr : j.next_retry_at = none)
    (hf : env.files j.file_path = false) :
    (jobStatus (processQueue env 1 s) j.id = some .failed ∧
     jobError (processQueue env 1 s) j.id = some (some "File not found") ∧
     jobAttempts (processQueue env 1 s) j.id = some (j.attempts + 1)) ∧
    (∀ (s0 : SysState) (fp bid : String), s0.queue = [] →
       env.files fp = false →
       jobStatus (uploadFile env s0 fp bid).1 s0.nextId = some .failed ∧
       jobError (uploadFile env s0 fp bid).1 s0.nextId =
         some (some "File not found") ∧
       jobAttempts (uploadFile env s0 fp bid).1 s0.nextId = some 0) := by
  constructor
  · have hclaim : (getNextJobs env s 10).2 = [j] :=
      getNextJobs_singleton env s j 9 hq (eligibleJob_of_pending hst hnr)
    have step : processQueue env 1 s =
        (processUploadJob env
          (incrementAttempts ⟨s.cb, s.queue, s.sent, s.reads + 1, s.rands,
            s.nextId⟩ j.id) j.id).1 := by
      unfold processQueue
      dsimp only
      rw [hclaim]
      dsimp only [drainSlots]
      rw [processQueue]
      rfl
    set jp : UploadJob := { j with attempts := j.attempts + 1 } with hjp
    set s2 : SysState :=
      ⟨s.cb, [jp], s.sent, s.reads + 1, s.rands, s.nextId⟩ with hs2
    have hinc : incrementAttempts
        ⟨s.cb, s.queue, s.sent, s.reads + 1, s.rands, s.nextId⟩ j.id = s2 := by
      simp [incrementAttempts, hq, hs2]
    have hclaim2 : (getNextJobs env s2 1).2 = [jp] :=
      getNextJobs_singleton env s2 jp 0 rfl
        (eligibleJob_of_pending hst hnr)
    have hproc := processUploadJob_file_missing env s2 jp j.id hclaim2 hf
    rw [step, hinc, hproc]
    simp [jobStatus, jobError, jobAttempts, findJob, updateJobStatus, hjp]
  · intro s0 fp bid h0 hfp
    unfold uploadFile
    dsimp only
    set X : UploadJob :=
      ⟨s0.nextId, fp, bid, .pending, 0, 5, env.clock s0.reads, none, none,
       none⟩ with hX
    set s1 : SysState :=
      ⟨s0.cb, s0.queue ++ [X], s0.sent, s0.reads + 1, s0.rands,
       s0.nextId + 1⟩ with hs1
    have hq1 : s1.queue = [X] := by rw [hs1, h0]; rfl
    have hclaim : (getNextJobs env s1 1).2 = [X] :=
      getNextJobs_singleton env s1 X 0 hq1 (eligibleJob_of_pending rfl rfl)
    have hproc := processUploadJob_file_missing env s1 X s0.nextId hclaim hfp
    rw [show (enqueue env s0 fp bid none).1 = s1 from rfl,
        show (enqueue env s0 fp bid none).2 = s0.nextId from rfl, hproc]
    have hq2 : (⟨s1.cb, s1.queue, s1.sent, s1.reads + 1, s1.rands,
        s1.nextId⟩ : SysState).queue = [X] := hq1
    obtain ⟨hA, hB, hC, _⟩ := jobFields_update_singleton _ X hq2 .failed
      (some "File not found") none
    exact ⟨hA, hB, hC⟩

/-- C4 amended: on HTTP 429 the Retry-After duration `d` survives only
inside the error message; for every `d`, the deferred job gets
`next_retry_at = now + backoff(attempts)` from the computed backoff (the
expression below does not depend on `d`), not `now + d`. -/
theorem c4_amended (env : Env) (s : SysState) (j : UploadJob) (d : Nat)
    (hj : (getNextJobs env s 1).2 = [j])
    (hf : env.files j.file_path = true) (hp : env.parses j.file_path = true)
    (hcb : ¬ s.cb.state = .opened)
    (hresp : env.resp s.sent = .rate_limited d)
    (hone : j.attempts + 1 = j.max_attempts) :
    jobStatus (processUploadJob env s 0).1 j.id = some .retry ∧
    jobError (processUploadJob env s 0).1 j.id =
      some (some ("Rate limited. Retry after " ++ toString d ++ " seconds")) ∧
    jobNextRetry (processUploadJob env s 0).1 j.id =
      some (some (env.clock (s.reads + 2) +
        calculateBackoff j.attempts (env.rand s.rands))) := by
  have hmk : makeUploadRequest (env.resp s.sent) =
      .error ("Rate limited. Retry after " ++ toString d ++ " seconds") := by
    rw [hresp]; rfl
  have h := processUploadJob_error_last env s j
    ("Rate limited. Retry after " ++ toString d ++ " seconds") 0 hj hf hp hcb
    hmk hone
  rw [h]
  have hmem : j ∈ s.queue :=
    mem_of_getNextJobs (by rw [hj]; exact List.mem_singleton_self j)
  obtain ⟨j0, h0⟩ := find?_id_mem hmem
  have hfj : findJob
      ⟨s.cb.onFailure (env.clock (s.reads + 1)), s.queue, s.sent + 1,
       s.reads + 3, s.rands + 1, s.nextId⟩ j.id =
      s.queue.find? (fun x => x.id == j.id) := rfl
  refine ⟨?_, ?_, ?_⟩
  · unfold jobStatus; rw [findJob_update, hfj, h0]; rfl
  · unfold jobError; rw [findJob_update, hfj, h0]; rfl
  · unfold jobNextRetry; rw [findJob_update, hfj, h0]; rfl

/-- C10: `update_job_status` overwrites exactly `status`, `error_message`
and `next_retry_at` of the row with the given id (the orchestrator's
`COMPLETED` update passes `none` for both optional fields, clearing them, as
its call site in `processUploadJob` shows), leaves that row's other seven
fields unchanged, and leaves every other row of the store entirely
unchanged. -/
theorem c10_update_frame (s : SysState) (i : Nat) (st : UploadStatus)
    (e : Option String) (n : Option ℚ) (k : Nat) (j : UploadJob)
    (hk : s.queue[k]? = some j) :
    (updateJobStatus s i st e n).queue.length = s.queue.length ∧
    ∃ j2, (updateJobStatus s i st e n).queue[k]? = some j2 ∧
      j2.id = j.id ∧ j2.file_path = j.file_path ∧ j2.batch_id = j.batch_id ∧
      j2.attempts = j.attempts ∧ j2.max_attempts = j.max_attempts ∧
      j2.created_at = j.created_at ∧ j2.metadata = j.metadata ∧
      (j.id = i → j2.status = st ∧ j2.error_message = e ∧ j2.next_retry_at = n) ∧
      (¬ j.id = i → j2 = j) := by
  refine ⟨by simp [updateJobStatus], ?_⟩
  refine ⟨if j.id = i then
      { j with status := st, error_message := e, next_retry_at := n }
    else j, ?_, ?_⟩
  · simp [updateJobStatus, List.getElem?_map, hk]
  · by_cases h : j.id = i <;> simp [h]

/-- C7 amended: the FAILED invariant `attempts ≤ max_attempts` does hold for
every drain of a store holding a single job (with a nondecreasing wall
clock), because there the job processed is always the job that was claimed
and incremented.  With several jobs the invariant fails (see the
counterexample): `_process_upload_job` re-fetches the oldest eligible job
instead of the claimed one, so increments can accumulate on a job that is
never processed. -/
theorem c7_amended (env : Env)
    (hmono : ∀ i k : Nat, i ≤ k → env.clock i ≤ env.clock k)
    (fuel : Nat) (s : SysState) (j : UploadJob)
    (hq : s.queue = [j]) (hinv : JobInv j) :
    ∀ j2 ∈ (processQueue env fuel s).queue,
      j2.status = .failed → j2.attempts ≤ j2.max_attempts := by
  obtain ⟨j3, hq3, hinv3⟩ := processQueue_single_inv env hmono fuel s j hq hinv
  intro x hx hxf
  rw [hq3] at hx
  rcases List.mem_singleton.mp hx with rfl
  exact hinv3.1 hxf

/-- C7 amended witness: one drain cycle of a single-job store under a constant
clock; the resulting failed job has `attempts = 1 ≤ 5 = max_attempts`. -/
theorem c7_amended_witness :
    jW7out.attempts ≤ jW7out.max_attempts :=
  c7_amended envW7 (fun _ _ _ => le_rfl) 1 sW7 jW7 rfl (by decide) jW7out
    (by decide) rfl

/-- C1 amended witness: the concrete client-error run of the counterexample,
through the amended theorem. -/
theorem c1_amended_witness :
    (processUploadJob envC1 sC1 0).2.1 = false ∧
    (processUploadJob envC1 sC1 0).2.2 =
      some ("Client error: " ++ "bad request") ∧
    (processUploadJob envC1 sC1 0).1.sent = sC1.sent + 1 ∧
    jobStatus (processUploadJob envC1 sC1 0).1 jC1.id = some .retry :=
  c1_amended envC1 sC1 jC1 "bad request" (by decide) rfl rfl (by decide) rfl
    (by decide)

/-- C3 amended witness at the concrete missing-file store. -/
theorem c3_amended_witness :
    (jobStatus (processQueue envC3 1 sC3) jC3.id = some .failed ∧
     jobError (processQueue envC3 1 sC3) jC3.id =
       some (some "File not found") ∧
     jobAttempts (processQueue envC3 1 sC3) jC3.id =
       some (jC3.attempts + 1)) ∧
    (∀ (s0 : SysState) (fp bid : String), s0.queue = [] →
       envC3.files fp = false →
       jobStatus (uploadFile envC3 s0 fp bid).1 s0.nextId = some .failed ∧
       jobError (uploadFile envC3 s0 fp bid).1 s0.nextId =
         some (some "File not found") ∧
       jobAttempts (uploadFile envC3 s0 fp bid).1 s0.nextId = some 0) :=
  c3_amended envC3 sC3 jC3 rfl rfl rfl rfl

/-- C4 amended witness: one remaining attempt, 429 with `Retry-After: 30`;
the scheduled time is the clock reading plus the computed backoff. -/
theorem c4_amended_witness :
    jobStatus (processUploadJob envC4 sW4 0).1 jW4.id = some .retry ∧
    jobError (processUploadJob envC4 sW4 0).1 jW4.id =
      some (some ("Rate limited. Retry after " ++ toString 30 ++
        " seconds")) ∧
    jobNextRetry (processUploadJob envC4 sW4 0).1 jW4.id =
      some (some (envC4.clock (sW4.reads + 2) +
        calculateBackoff jW4.attempts (envC4.rand sW4.rands))) :=
  c4_amended envC4 sW4 jW4 30 (by decide) rfl rfl (by decide) rfl rfl

/-- C10 witness: marking the first of two rows `COMPLETED` with omitted
optional arguments clears its stale error and retry time, keeps its other
fields, and leaves the second row untouched. -/
theorem c10_update_frame_witness :
    (updateJobStatus sW10 7 .completed none none).queue.length =
      sW10.queue.length ∧
    ∃ j2, (updateJobStatus sW10 7 .completed none none).queue[0]? = some j2 ∧
      j2.id = jW10a.id ∧ j2.file_path = jW10a.file_path ∧
      j2.batch_id = jW10a.batch_id ∧ j2.attempts = jW10a.attempts ∧
      j2.max_attempts = jW10a.max_attempts ∧
      j2.created_at = jW10a.created_at ∧ j2.metadata = jW10a.metadata ∧
      (jW10a.id = 7 → j2.status = .completed ∧ j2.error_message = none ∧
        j2.next_retry_at = none) ∧
      (¬ jW10a.id = 7 → j2 = jW10a) :=
  c10_update_frame sW10 7 .completed none none 0 jW10a rfl
